import Mathlib

/-!
Shallow embedding of the Arduino sketch
`src/Arduino/MQTT_Client/MQTT_Client.ino` (with the constants it takes from
`secrets.h`).

The sketch is single-threaded.  Every hardware or network interaction is made
an explicit parameter of the embedded function:
* `analogRead(A0)` results are passed in as `Int` arguments (C `int`);
* `digitalRead(LED_BUILTIN)` reads the output latch, which is part of the
  modelled state (`ledPin`), and `digitalWrite` sets it;
* the boolean results of `mqttClient.publish`, `mqttClient.subscribe` and
  `mqttClient.connect` are passed in as `Bool` arguments;
* observable actions (publish attempts, pin writes, subscriptions, connect
  attempts, `delay` calls, `WiFi.begin`) are recorded in an event trace;
* the two blocking retry loops (`connectMQTTBroker`, the WiFi association
  wait) are given the finite prefix of attempt outcomes that they observe and
  return `false` when that prefix is exhausted without success, i.e. when the
  loop has not yet returned within the observed attempts;
* `Serial` debug printing has no programme-visible effect and is not modelled.
-/

namespace MQTTClient

/-- Constant `MQTT_CLIENT_ID` from `secrets.h`. -/
def MQTTClientID : String := "Arduino"

/-- Arduino `HIGH`. -/
def HIGH : Nat := 1

/-- Arduino `LOW`. -/
def LOW : Nat := 0

/-- The nul byte that terminates C strings. -/
def nulChar : Char := Char.ofNat 0

/-- The C-string a buffer holds: its bytes up to the first nul.  `strcmp`
compares exactly these prefixes. -/
def cTrunc (s : String) : String := ⟨s.data.takeWhile (fun c => c ≠ nulChar)⟩

/-- Test `strcmp(a, b) == 0`: the two buffers agree as C strings. -/
def strEq (a b : String) : Bool := cTrunc a == cTrunc b

/-- Topic built by `mqttCommandReceived`: `MQTTClientID ++ "/command/A0"`. -/
def commandA0Topic : String := MQTTClientID ++ "/command/A0"

/-- Topic built by `mqttCommandReceived`: `MQTTClientID ++ "/command/LED"`. -/
def commandLEDTopic : String := MQTTClientID ++ "/command/LED"

/-- Topic built by `mqttPublishA0Status`. -/
def statusA0Topic : String := MQTTClientID ++ "/status/A0"

/-- Topic built by `mqttPublishLEDStatus`. -/
def statusLEDTopic : String := MQTTClientID ++ "/status/LED"

/-- Wildcard topic built by `mqttSubscribeToCommands`. -/
def commandWildcardTopic : String := MQTTClientID ++ "/command/#"

/-- Observable actions of the sketch. -/
inductive Event where
  | publish (topic payload : String) (retained ok : Bool)
  | pinWrite (value : Nat)
  | subscribe (topic : String) (qos : Nat) (ok : Bool)
  | connectAttempt (ok : Bool)
  | delayMs (ms : Nat)
  | wifiBegin
deriving DecidableEq

/-- The mutable globals of the sketch plus the LED output latch
(`digitalRead(LED_BUILTIN)` on an output pin returns the latch). -/
structure MState where
  previousA0Value : Int
  previousLEDValue : Nat
  ledPin : Nat
deriving DecidableEq

/-- State right after `pinMode(LED_BUILTIN, OUTPUT)` in `setup`: the globals
hold their initialisers (`previousLEDValue = LOW`, `previousA0Value = 0`) and
the LED latch starts `LOW`. -/
def initState : MState :=
  { previousA0Value := 0, previousLEDValue := LOW, ledPin := LOW }

/-- ASCII digit for `d < 10`, as `itoa` emits in base 10. -/
def digitChar (d : Nat) : Char := Char.ofNat (48 + d)

/-- Decimal digits of `n`, most significant first; structural recursion on a
fuel argument so that the kernel can evaluate it. -/
def natDigitsAux : Nat → Nat → List Char
  | 0, _ => []
  | fuel + 1, n =>
    if n < 10 then [digitChar n]
    else natDigitsAux fuel (n / 10) ++ [digitChar (n % 10)]

/-- Decimal digits of `n` (fuel `n + 1` always suffices). -/
def natDigits (n : Nat) : List Char := natDigitsAux (n + 1) n

/-- Semantics of `itoa(v, buffer, 10)`: decimal rendering, with a leading
minus sign for negative values. -/
def itoa10 (v : Int) : String :=
  if v < 0 then ⟨Char.ofNat 45 :: natDigits v.natAbs⟩ else ⟨natDigits v.natAbs⟩

/-- Rendering `currentLEDValue == HIGH ? "on" : "off"` from `mqttPublishLEDStatus`. -/
def ledStatusString (v : Nat) : String := if v == HIGH then "on" else "off"

/-- Function `mqttPublishA0Status`: takes a fresh `analogRead(A0)` (`reading`),
renders it with `itoa`, publishes retained, and updates `previousA0Value`
only when the publish succeeded. -/
def mqttPublishA0Status (reading : Int) (pubOk : Bool) (s : MState) :
    MState × List Event :=
  let status := itoa10 reading
  let ev := Event.publish statusA0Topic status true pubOk
  if pubOk then ({ s with previousA0Value := reading }, [ev]) else (s, [ev])

/-- Function `mqttPublishLEDStatus`: reads the LED pin at publish time, renders
"on"/"off", publishes retained, and updates `previousLEDValue` only when the
publish succeeded. -/
def mqttPublishLEDStatus (pubOk : Bool) (s : MState) : MState × List Event :=
  let currentLEDValue := s.ledPin
  let status := ledStatusString currentLEDValue
  let ev := Event.publish statusLEDTopic status true pubOk
  if pubOk then ({ s with previousLEDValue := currentLEDValue }, [ev])
  else (s, [ev])

/-- Function `mqttCheckAndReportStatus`: `r1` is the `analogRead(A0)` taken by the
check itself, `r2` the one taken inside `mqttPublishA0Status` when called. -/
def mqttCheckAndReportStatus (r1 r2 : Int) (a0PubOk ledPubOk : Bool)
    (s : MState) : MState × List Event :=
  let step1 :=
    if 100 < (r1 - s.previousA0Value).natAbs then
      mqttPublishA0Status r2 a0PubOk s
    else (s, [])
  let s1 := step1.1
  let step2 :=
    if s1.ledPin ≠ s1.previousLEDValue then mqttPublishLEDStatus ledPubOk s1
    else (s1, [])
  (step2.1, step1.2 ++ step2.2)

/-- Callback `mqttCommandReceived`: the payload bytes are copied into a buffer and
nul-terminated, then compared with `strcmp` (hence `strEq`, which truncates
at the first nul byte).  `reading` and `pubOk` feed a possible
`mqttPublishA0Status` call; `pubOk` also feeds `mqttPublishLEDStatus`. -/
def mqttCommandReceived (topic payload : String) (reading : Int)
    (pubOk : Bool) (s : MState) : MState × List Event :=
  if strEq topic commandA0Topic && strEq payload "get" then
    mqttPublishA0Status reading pubOk s
  else if strEq topic commandLEDTopic && strEq payload "get" then
    mqttPublishLEDStatus pubOk s
  else if strEq topic commandLEDTopic && strEq payload "on" then
    let s1 := { s with ledPin := HIGH }
    let step := mqttPublishLEDStatus pubOk s1
    (step.1, Event.pinWrite HIGH :: step.2)
  else if strEq topic commandLEDTopic && strEq payload "off" then
    let s1 := { s with ledPin := LOW }
    let step := mqttPublishLEDStatus pubOk s1
    (step.1, Event.pinWrite LOW :: step.2)
  else (s, [])

/-- Function `mqttSubscribeToCommands`: one subscribe call on the wildcard topic with
QoS 1 (only logging depends on the result). -/
def mqttSubscribeToCommands (subOk : Bool) : List Event :=
  [Event.subscribe commandWildcardTopic 1 subOk]

/-- Function `connectMQTTBroker`: while not connected, connect or delay 1000 ms.
`attempts` is the finite prefix of connect results the loop observes; the
second component is `true` when the loop returned within that prefix. -/
def connectMQTTBroker : List Bool → List Event × Bool
  | [] => ([], false)
  | ok :: rest =>
    if ok then ([Event.connectAttempt true], true)
    else
      let next := connectMQTTBroker rest
      (Event.connectAttempt false :: Event.delayMs 1000 :: next.1, next.2)

/-- Results of `WiFi.status()` distinguished by `connectWiFiNetwork`. -/
inductive WiFiStatus where
  | noModule
  | connected
  | idle
deriving DecidableEq

/-- The `while (WiFi.status() != WL_CONNECTED) delay(1000);` wait:
`polls` is the finite prefix of status polls observed. -/
def wifiWaitForConnection : List WiFiStatus → List Event × Bool
  | [] => ([], false)
  | st :: rest =>
    if st = WiFiStatus.connected then ([], true)
    else
      let next := wifiWaitForConnection rest
      (Event.delayMs 1000 :: next.1, next.2)

/-- Function `connectWiFiNetwork`: if the module is absent it enters `while (true);`
and never returns (result `false` with an empty trace for every observation);
otherwise it calls `WiFi.begin` and waits for association. -/
def connectWiFiNetwork (status0 : WiFiStatus) (polls : List WiFiStatus) :
    List Event × Bool :=
  if status0 = WiFiStatus.noModule then ([], false)
  else
    let wait := wifiWaitForConnection polls
    (Event.wifiBegin :: wait.1, wait.2)

/-- Function `setup`: pin configuration, WiFi and broker connection, initial status
publishes, subscription.  The boolean is `false` when one of the blocking
connect loops has not returned within its observed attempts. -/
def setup (status0 : WiFiStatus) (polls : List WiFiStatus)
    (attempts : List Bool) (reading : Int) (a0PubOk ledPubOk subOk : Bool) :
    MState × List Event × Bool :=
  let s0 := initState
  let wifi := connectWiFiNetwork status0 polls
  if !wifi.2 then (s0, wifi.1, false)
  else
    let broker := connectMQTTBroker attempts
    if !broker.2 then (s0, wifi.1 ++ broker.1, false)
    else
      let step1 := mqttPublishA0Status reading a0PubOk s0
      let step2 := mqttPublishLEDStatus ledPubOk step1.1
      (step2.1,
        wifi.1 ++ broker.1 ++ step1.2 ++ step2.2 ++
          mqttSubscribeToCommands subOk, true)

/-- One message delivered by `mqttClient.loop()` together with the
environment inputs its dispatch consumes. -/
structure InboundMsg where
  topic : String
  payload : String
  reading : Int
  pubOk : Bool

/-- Pump `mqttClient.loop()`: delivers each pending inbound message to the
callback `mqttCommandReceived`, in order. -/
def mqttClientLoop : List InboundMsg → MState → MState × List Event
  | [], s => (s, [])
  | m :: rest, s =>
    let step := mqttCommandReceived m.topic m.payload m.reading m.pubOk s
    let next := mqttClientLoop rest step.1
    (next.1, step.2 ++ next.2)

/-- Function `loop`: reconnect and re-subscribe when disconnected, then service the
inbound pump, then run the periodic status check.  The boolean is `false`
when the broker reconnect loop has not returned within its observed
attempts (in which case nothing after it runs). -/
def loop (connected : Bool) (attempts : List Bool) (subOk : Bool)
    (inbound : List InboundMsg) (r1 r2 : Int) (a0PubOk ledPubOk : Bool)
    (s : MState) : MState × List Event × Bool :=
  if !connected then
    let broker := connectMQTTBroker attempts
    if !broker.2 then (s, broker.1, false)
    else
      let subEvents := mqttSubscribeToCommands subOk
      let pump := mqttClientLoop inbound s
      let check := mqttCheckAndReportStatus r1 r2 a0PubOk ledPubOk pump.1
      (check.1, broker.1 ++ subEvents ++ pump.2 ++ check.2, true)
  else
    let pump := mqttClientLoop inbound s
    let check := mqttCheckAndReportStatus r1 r2 a0PubOk ledPubOk pump.1
    (check.1, pump.2 ++ check.2, true)

/-- The operations that run after `setup`: a single dispatcher callback, a
single periodic check, or a whole `loop` iteration. -/
inductive Op where
  | command (topic payload : String) (reading : Int) (pubOk : Bool)
  | check (r1 r2 : Int) (a0PubOk ledPubOk : Bool)
  | loopStep (connected : Bool) (attempts : List Bool) (subOk : Bool)
      (inbound : List InboundMsg) (r1 r2 : Int) (a0PubOk ledPubOk : Bool)

/-- Run one operation. -/
def runOp : Op → MState → MState × List Event
  | Op.command t p r ok, s => mqttCommandReceived t p r ok s
  | Op.check r1 r2 a b, s => mqttCheckAndReportStatus r1 r2 a b s
  | Op.loopStep c att sub inb r1 r2 a b, s =>
    let res := loop c att sub inb r1 r2 a b s
    (res.1, res.2.1)

/-- Run a sequence of operations, accumulating the trace. -/
def run : List Op → MState → MState × List Event
  | [], s => (s, [])
  | op :: ops, s =>
    let step := runOp op s
    let rest := run ops step.1
    (rest.1, step.2 ++ rest.2)

/-- The payload `e` successfully publishes on `topic`, if any. -/
def evPayloadOn (topic : String) (e : Event) : Option String :=
  match e with
  | Event.publish t p _ ok => if ok && t == topic then some p else none
  | _ => none

/-- Payload of the most recent successful publish on `topic` in the trace
(events are in chronological order). -/
def lastPayloadOn (topic : String) : List Event → Option String
  | [] => none
  | e :: rest =>
    match lastPayloadOn topic rest with
    | some p => some p
    | none => evPayloadOn topic e

/-- The cached globals reflect the most recent successful status publishes:
`previousA0Value` renders to the payload of the last successful A0 status
publish (and is `0` before any), `previousLEDValue` renders to the payload of
the last successful LED status publish (and is `LOW` before any). -/
def Inv (s : MState) (tr : List Event) : Prop :=
  (lastPayloadOn statusA0Topic tr = none → s.previousA0Value = 0) ∧
  (∀ p, lastPayloadOn statusA0Topic tr = some p →
    p = itoa10 s.previousA0Value) ∧
  (lastPayloadOn statusLEDTopic tr = none → s.previousLEDValue = LOW) ∧
  (∀ p, lastPayloadOn statusLEDTopic tr = some p →
    p = ledStatusString s.previousLEDValue)

/-- Counts publish attempts (successful or not) on the A0 status topic. -/
def isA0StatusPublish : Event → Bool
  | Event.publish t _ _ _ => t == statusA0Topic
  | _ => false

/-- Number of A0 status publish attempts in a trace. -/
def countA0Attempts (tr : List Event) : Nat :=
  (tr.filter isA0StatusPublish).length



theorem lastPayloadOn_append_some (topic : String) (a b : List Event)
    (p : String) (h : lastPayloadOn topic b = some p) :
    lastPayloadOn topic (a ++ b) = some p := by
  induction a with
  | nil => simpa using h
  | cons e a ih =>
    show (match lastPayloadOn topic (a ++ b) with
      | some q => some q
      | none => evPayloadOn topic e) = some p
    rw [ih]

theorem lastPayloadOn_append_none (topic : String) (a b : List Event)
    (h : lastPayloadOn topic b = none) :
    lastPayloadOn topic (a ++ b) = lastPayloadOn topic a := by
  induction a with
  | nil => simpa using h
  | cons e a ih =>
    show (match lastPayloadOn topic (a ++ b) with
      | some q => some q
      | none => evPayloadOn topic e) =
      (match lastPayloadOn topic a with
      | some q => some q
      | none => evPayloadOn topic e)
    rw [ih]

theorem lastPayloadOn_inert (topic : String) (t : List Event)
    (h : ∀ e ∈ t, evPayloadOn topic e = none) :
    lastPayloadOn topic t = none := by
  induction t with
  | nil => rfl
  | cons e t ih =>
    have ht : lastPayloadOn topic t = none :=
      ih (fun x hx => h x (List.mem_cons_of_mem e hx))
    show (match lastPayloadOn topic t with
      | some q => some q
      | none => evPayloadOn topic e) = none
    rw [ht]
    exact h e (List.mem_cons_self e t)

theorem lastPayloadOn_singleton (topic : String) (e : Event) :
    lastPayloadOn topic [e] = evPayloadOn topic e := rfl

theorem Inv_append_inert (s : MState) (tr t : List Event)
    (hA0 : ∀ e ∈ t, evPayloadOn statusA0Topic e = none)
    (hLED : ∀ e ∈ t, evPayloadOn statusLEDTopic e = none)
    (h : Inv s tr) : Inv s (tr ++ t) := by
  obtain ⟨h1, h2, h3, h4⟩ := h
  have eA0 : lastPayloadOn statusA0Topic (tr ++ t) =
      lastPayloadOn statusA0Topic tr :=
    lastPayloadOn_append_none _ _ _ (lastPayloadOn_inert _ _ hA0)
  have eLED : lastPayloadOn statusLEDTopic (tr ++ t) =
      lastPayloadOn statusLEDTopic tr :=
    lastPayloadOn_append_none _ _ _ (lastPayloadOn_inert _ _ hLED)
  refine ⟨?_, ?_, ?_, ?_⟩
  · rw [eA0]; exact h1
  · intro p hp; rw [eA0] at hp; exact h2 p hp
  · rw [eLED]; exact h3
  · intro p hp; rw [eLED] at hp; exact h4 p hp

theorem Inv_publishA0 (r : Int) (ok : Bool) (s : MState) (tr : List Event)
    (h : Inv s tr) :
    Inv (mqttPublishA0Status r ok s).1
      (tr ++ (mqttPublishA0Status r ok s).2) := by
  obtain ⟨h1, h2, h3, h4⟩ := h
  cases ok with
  | false =>
    have hs : (mqttPublishA0Status r false s).1 = s := rfl
    have htr : (mqttPublishA0Status r false s).2 =
        [Event.publish statusA0Topic (itoa10 r) true false] := rfl
    rw [hs, htr]
    refine Inv_append_inert s tr _ ?_ ?_ ⟨h1, h2, h3, h4⟩
    · intro e he; rw [List.mem_singleton] at he; subst he; rfl
    · intro e he; rw [List.mem_singleton] at he; subst he; rfl
  | true =>
    have hs : (mqttPublishA0Status r true s).1 =
        { s with previousA0Value := r } := rfl
    have htr : (mqttPublishA0Status r true s).2 =
        [Event.publish statusA0Topic (itoa10 r) true true] := rfl
    rw [hs, htr]
    have e1 : lastPayloadOn statusA0Topic
        [Event.publish statusA0Topic (itoa10 r) true true] =
        some (itoa10 r) := by
      rw [lastPayloadOn_singleton]
      simp [evPayloadOn]
    have e2 : lastPayloadOn statusLEDTopic
        [Event.publish statusA0Topic (itoa10 r) true true] = none := by
      rw [lastPayloadOn_singleton]
      simp [evPayloadOn]
      decide
    have eA0 := lastPayloadOn_append_some statusA0Topic tr _ _ e1
    have eLED := lastPayloadOn_append_none statusLEDTopic tr _ e2
    refine ⟨?_, ?_, ?_, ?_⟩
    · rw [eA0]; intro hc; cases hc
    · intro p hp; rw [eA0] at hp
      cases hp; rfl
    · rw [eLED]; exact h3
    · intro p hp; rw [eLED] at hp; exact h4 p hp

theorem Inv_publishLED (ok : Bool) (s : MState) (tr : List Event)
    (h : Inv s tr) :
    Inv (mqttPublishLEDStatus ok s).1
      (tr ++ (mqttPublishLEDStatus ok s).2) := by
  obtain ⟨h1, h2, h3, h4⟩ := h
  cases ok with
  | false =>
    have hs : (mqttPublishLEDStatus false s).1 = s := rfl
    have htr : (mqttPublishLEDStatus false s).2 =
        [Event.publish statusLEDTopic (ledStatusString s.ledPin) true
          false] := rfl
    rw [hs, htr]
    refine Inv_append_inert s tr _ ?_ ?_ ⟨h1, h2, h3, h4⟩
    · intro e he; rw [List.mem_singleton] at he; subst he; rfl
    · intro e he; rw [List.mem_singleton] at he; subst he; rfl
  | true =>
    have hs : (mqttPublishLEDStatus true s).1 =
        { s with previousLEDValue := s.ledPin } := rfl
    have htr : (mqttPublishLEDStatus true s).2 =
        [Event.publish statusLEDTopic (ledStatusString s.ledPin) true
          true] := rfl
    rw [hs, htr]
    have e1 : lastPayloadOn statusLEDTopic
        [Event.publish statusLEDTopic (ledStatusString s.ledPin) true true] =
        some (ledStatusString s.ledPin) := by
      rw [lastPayloadOn_singleton]
      simp [evPayloadOn]
    have e2 : lastPayloadOn statusA0Topic
        [Event.publish statusLEDTopic (ledStatusString s.ledPin) true true] =
        none := by
      rw [lastPayloadOn_singleton]
      simp [evPayloadOn]
      decide
    have eLED := lastPayloadOn_append_some statusLEDTopic tr _ _ e1
    have eA0 := lastPayloadOn_append_none statusA0Topic tr _ e2
    refine ⟨?_, ?_, ?_, ?_⟩
    · rw [eA0]; exact h1
    · intro p hp; rw [eA0] at hp; exact h2 p hp
    · rw [eLED]; intro hc; cases hc
    · intro p hp; rw [eLED] at hp
      cases hp; rfl

/-- A state transformer preserves the cache/trace invariant. -/
def Preserves (f : MState → MState × List Event) : Prop :=
  ∀ s tr, Inv s tr → Inv (f s).1 (tr ++ (f s).2)

theorem preserves_seq (f g : MState → MState × List Event)
    (hf : Preserves f) (hg : Preserves g) :
    Preserves (fun s =>
      ((g (f s).1).1, (f s).2 ++ (g (f s).1).2)) := by
  intro s tr h
  have h1 := hf s tr h
  have h2 := hg (f s).1 (tr ++ (f s).2) h1
  simpa [List.append_assoc] using h2

theorem preserves_skip : Preserves (fun s => (s, [])) := by
  intro s tr h
  simpa using h

theorem preserves_ite (c : MState → Prop) [DecidablePred c]
    (f g : MState → MState × List Event)
    (hf : Preserves f) (hg : Preserves g) :
    Preserves (fun s => if c s then f s else g s) := by
  intro s tr h
  by_cases hc : c s
  · simpa [hc] using hf s tr h
  · simpa [hc] using hg s tr h

theorem preserves_check (r1 r2 : Int) (a b : Bool) :
    Preserves (fun s => mqttCheckAndReportStatus r1 r2 a b s) := by
  have hf : Preserves (fun s =>
      if 100 < (r1 - s.previousA0Value).natAbs then
        mqttPublishA0Status r2 a s
      else (s, [])) :=
    preserves_ite _ _ _
      (fun s tr h => Inv_publishA0 r2 a s tr h) preserves_skip
  have hg : Preserves (fun s =>
      if s.ledPin ≠ s.previousLEDValue then mqttPublishLEDStatus b s
      else (s, [])) :=
    preserves_ite _ _ _
      (fun s tr h => Inv_publishLED b s tr h) preserves_skip
  exact preserves_seq _ _ hf hg

theorem Inv_ledPin (v : Nat) (s : MState) (tr : List Event)
    (h : Inv s tr) : Inv { s with ledPin := v } tr := h

theorem preserves_command (t p : String) (r : Int) (ok : Bool) :
    Preserves (fun s => mqttCommandReceived t p r ok s) := by
  intro s tr h
  unfold mqttCommandReceived
  by_cases c1 : (strEq t commandA0Topic && strEq p "get") = true
  · simpa [c1] using Inv_publishA0 r ok s tr h
  · by_cases c2 : (strEq t commandLEDTopic && strEq p "get") = true
    · simpa [c1, c2] using Inv_publishLED ok s tr h
    · by_cases c3 : (strEq t commandLEDTopic && strEq p "on") = true
      · have h1 : Inv { s with ledPin := HIGH } tr := Inv_ledPin HIGH s tr h
        have h2 := Inv_publishLED ok { s with ledPin := HIGH } tr h1
        have h3 : Inv (mqttPublishLEDStatus ok { s with ledPin := HIGH }).1
            ((tr ++ [Event.pinWrite HIGH]) ++
              (mqttPublishLEDStatus ok { s with ledPin := HIGH }).2) := by
          obtain ⟨g1, g2, g3, g4⟩ := h1
          exact Inv_publishLED ok { s with ledPin := HIGH } _
            (Inv_append_inert _ tr [Event.pinWrite HIGH]
              (by intro e he; rw [List.mem_singleton] at he; subst he; rfl)
              (by intro e he; rw [List.mem_singleton] at he; subst he; rfl)
              ⟨g1, g2, g3, g4⟩)
        simpa [c1, c2, c3, List.append_assoc] using h3
      · by_cases c4 : (strEq t commandLEDTopic && strEq p "off") = true
        · have h1 : Inv { s with ledPin := LOW } tr := Inv_ledPin LOW s tr h
          have h3 : Inv (mqttPublishLEDStatus ok { s with ledPin := LOW }).1
              ((tr ++ [Event.pinWrite LOW]) ++
                (mqttPublishLEDStatus ok { s with ledPin := LOW }).2) := by
            obtain ⟨g1, g2, g3, g4⟩ := h1
            exact Inv_publishLED ok { s with ledPin := LOW } _
              (Inv_append_inert _ tr [Event.pinWrite LOW]
                (by intro e he; rw [List.mem_singleton] at he; subst he; rfl)
                (by intro e he; rw [List.mem_singleton] at he; subst he; rfl)
                ⟨g1, g2, g3, g4⟩)
          simpa [c1, c2, c3, c4, List.append_assoc] using h3
        · simpa [c1, c2, c3, c4] using h

theorem preserves_pump (inbound : List InboundMsg) :
    Preserves (fun s => mqttClientLoop inbound s) := by
  induction inbound with
  | nil => exact preserves_skip
  | cons m rest ih =>
    intro s tr h
    have h1 := preserves_command m.topic m.payload m.reading m.pubOk s tr h
    have h2 := ih _ _ h1
    simpa [mqttClientLoop, List.append_assoc] using h2

theorem connectMQTTBroker_events (attempts : List Bool) :
    ∀ e ∈ (connectMQTTBroker attempts).1,
      e = Event.connectAttempt true ∨ e = Event.connectAttempt false ∨
        e = Event.delayMs 1000 := by
  induction attempts with
  | nil => intro e he; cases he
  | cons ok rest ih =>
    intro e he
    cases ok with
    | true =>
      rw [show (connectMQTTBroker (true :: rest)).1 =
        [Event.connectAttempt true] from rfl, List.mem_singleton] at he
      exact Or.inl he
    | false =>
      rw [show (connectMQTTBroker (false :: rest)).1 =
        Event.connectAttempt false :: Event.delayMs 1000 ::
          (connectMQTTBroker rest).1 from rfl] at he
      rcases he with _ | ⟨_, he⟩
      · exact Or.inr (Or.inl rfl)
      · rcases he with _ | ⟨_, he⟩
        · exact Or.inr (Or.inr rfl)
        · exact ih e he

theorem evPayloadOn_broker (topic : String) (att : List Bool) :
    ∀ e ∈ (connectMQTTBroker att).1, evPayloadOn topic e = none := by
  intro e he
  rcases connectMQTTBroker_events att e he with h | h | h <;> subst h <;> rfl

theorem wifiWait_events (polls : List WiFiStatus) :
    ∀ e ∈ (wifiWaitForConnection polls).1, e = Event.delayMs 1000 := by
  induction polls with
  | nil => intro e he; cases he
  | cons st rest ih =>
    intro e he
    by_cases hs : st = WiFiStatus.connected
    · rw [show wifiWaitForConnection (st :: rest) = ([], true) from by
        simp [wifiWaitForConnection, hs]] at he
      cases he
    · rw [show (wifiWaitForConnection (st :: rest)).1 =
        Event.delayMs 1000 :: (wifiWaitForConnection rest).1 from by
        simp [wifiWaitForConnection, hs]] at he
      rcases he with _ | ⟨_, he⟩
      · rfl
      · exact ih e he

theorem evPayloadOn_wifi (topic : String) (st0 : WiFiStatus)
    (polls : List WiFiStatus) :
    ∀ e ∈ (connectWiFiNetwork st0 polls).1, evPayloadOn topic e = none := by
  intro e he
  unfold connectWiFiNetwork at he
  by_cases hs : st0 = WiFiStatus.noModule
  · simp [hs] at he
  · rw [show (if st0 = WiFiStatus.noModule then (([], false) :
        List Event × Bool)
      else
        (Event.wifiBegin :: (wifiWaitForConnection polls).1,
          (wifiWaitForConnection polls).2)).1 =
      Event.wifiBegin :: (wifiWaitForConnection polls).1 from by
        simp [hs]] at he
    rcases he with _ | ⟨_, he⟩
    · rfl
    · rw [wifiWait_events polls e he]; rfl

theorem preserves_loopStep (c : Bool) (att : List Bool) (sub : Bool)
    (inb : List InboundMsg) (r1 r2 : Int) (a b : Bool) :
    Preserves (fun s => ((loop c att sub inb r1 r2 a b s).1,
      (loop c att sub inb r1 r2 a b s).2.1)) := by
  intro s tr h
  cases c with
  | true =>
    have hpc := preserves_seq _ _ (preserves_pump inb)
      (preserves_check r1 r2 a b) s tr h
    simpa [loop, List.append_assoc] using hpc
  | false =>
    by_cases hb : (connectMQTTBroker att).2 = true
    · obtain ⟨h1, h2, h3, h4⟩ := h
      have h0 : Inv s (tr ++ (connectMQTTBroker att).1 ++
          mqttSubscribeToCommands sub) := by
        have i1 : Inv s (tr ++ (connectMQTTBroker att).1) :=
          Inv_append_inert s tr _ (evPayloadOn_broker _ att)
            (evPayloadOn_broker _ att) ⟨h1, h2, h3, h4⟩
        exact Inv_append_inert s _ _
          (by intro e he
              simp only [mqttSubscribeToCommands, List.mem_singleton] at he
              subst he; rfl)
          (by intro e he
              simp only [mqttSubscribeToCommands, List.mem_singleton] at he
              subst he; rfl) i1
      have hpc := preserves_seq _ _ (preserves_pump inb)
        (preserves_check r1 r2 a b) s _ h0
      simpa [loop, hb, List.append_assoc] using hpc
    · have h0 : Inv s (tr ++ (connectMQTTBroker att).1) :=
        Inv_append_inert s tr _ (evPayloadOn_broker _ att)
          (evPayloadOn_broker _ att) h
      simpa [loop, hb] using h0

theorem preserves_runOp (op : Op) : Preserves (fun s => runOp op s) := by
  cases op with
  | command t p r ok => exact preserves_command t p r ok
  | check r1 r2 a b => exact preserves_check r1 r2 a b
  | loopStep c att sub inb r1 r2 a b =>
    exact preserves_loopStep c att sub inb r1 r2 a b

theorem run_preserves (ops : List Op) : Preserves (fun s => run ops s) := by
  induction ops with
  | nil => exact preserves_skip
  | cons op ops ih =>
    intro s tr h
    have h1 := preserves_runOp op s tr h
    have h2 := ih _ _ h1
    simpa [run, List.append_assoc] using h2

theorem Inv_initState : Inv initState [] := by
  refine ⟨fun _ => rfl, ?_, fun _ => rfl, ?_⟩
  · intro p hp; cases hp
  · intro p hp; cases hp

theorem setup_inv (st0 : WiFiStatus) (polls : List WiFiStatus)
    (attempts : List Bool) (r : Int) (a b c : Bool) :
    Inv (setup st0 polls attempts r a b c).1
      (setup st0 polls attempts r a b c).2.1 := by
  have iwifi : Inv initState (connectWiFiNetwork st0 polls).1 := by
    have := Inv_append_inert initState [] _
      (evPayloadOn_wifi _ st0 polls) (evPayloadOn_wifi _ st0 polls)
      Inv_initState
    simpa using this
  by_cases hw : (connectWiFiNetwork st0 polls).2 = true
  · by_cases hbk : (connectMQTTBroker attempts).2 = true
    · have ibroker : Inv initState ((connectWiFiNetwork st0 polls).1 ++
          (connectMQTTBroker attempts).1) :=
        Inv_append_inert initState _ _ (evPayloadOn_broker _ attempts)
          (evPayloadOn_broker _ attempts) iwifi
      have ia0 := Inv_publishA0 r a initState _ ibroker
      have iled := Inv_publishLED b (mqttPublishA0Status r a initState).1 _
        ia0
      have isub := Inv_append_inert _ _ (mqttSubscribeToCommands c)
        (by intro e he
            simp only [mqttSubscribeToCommands, List.mem_singleton] at he
            subst he; rfl)
        (by intro e he
            simp only [mqttSubscribeToCommands, List.mem_singleton] at he
            subst he; rfl) iled
      simpa [setup, hw, hbk, List.append_assoc] using isub
    · have ibroker : Inv initState ((connectWiFiNetwork st0 polls).1 ++
          (connectMQTTBroker attempts).1) :=
        Inv_append_inert initState _ _ (evPayloadOn_broker _ attempts)
          (evPayloadOn_broker _ attempts) iwifi
      simpa [setup, hw, hbk] using ibroker
  · simpa [setup, hw] using iwifi

/-- Claim C4: after `setup` and any sequence of dispatcher callbacks,
periodic checks and loop iterations, `previousA0Value` renders to the
payload of the most recent successful A0 status publish (and is `0` before
any), and `previousLEDValue` renders to the payload of the most recent
successful LED status publish (and is `LOW` before any). -/
theorem C4_cache_reflects_last_publish (st0 : WiFiStatus)
    (polls : List WiFiStatus) (attempts : List Bool) (r : Int)
    (a b c : Bool) (ops : List Op) :
    Inv (run ops (setup st0 polls attempts r a b c).1).1
      ((setup st0 polls attempts r a b c).2.1 ++
        (run ops (setup st0 polls attempts r a b c).1).2) :=
  run_preserves ops _ _ (setup_inv st0 polls attempts r a b c)

/-- Witness for C4 at a concrete run: boot with reading 512, then an LED-on
command; the invariant yields that the last published payloads render the
cached values. -/
theorem C4_witness :
    (lastPayloadOn statusLEDTopic
      ((setup WiFiStatus.connected [WiFiStatus.connected] [true] 512 true
          true true).2.1 ++
        (run [Op.command commandLEDTopic "on" 0 true]
          (setup WiFiStatus.connected [WiFiStatus.connected] [true] 512 true
            true true).1).2) = some "on") ∧
    "on" = ledStatusString
      (run [Op.command commandLEDTopic "on" 0 true]
        (setup WiFiStatus.connected [WiFiStatus.connected] [true] 512 true
          true true).1).1.previousLEDValue ∧
    "512" = itoa10
      (run [Op.command commandLEDTopic "on" 0 true]
        (setup WiFiStatus.connected [WiFiStatus.connected] [true] 512 true
          true true).1).1.previousA0Value := by
  refine ⟨by decide, ?_, ?_⟩
  · exact (C4_cache_reflects_last_publish WiFiStatus.connected
      [WiFiStatus.connected] [true] 512 true true true
      [Op.command commandLEDTopic "on" 0 true]).2.2.2 "on" (by decide)
  · exact (C4_cache_reflects_last_publish WiFiStatus.connected
      [WiFiStatus.connected] [true] 512 true true true
      [Op.command commandLEDTopic "on" 0 true]).2.1 "512" (by decide)


/-- The two status topics are distinct C strings. -/
theorem ledTopic_ne_a0 : (statusLEDTopic == statusA0Topic) = false := by
  decide

theorem countA0Attempts_append (t1 t2 : List Event) :
    countA0Attempts (t1 ++ t2) = countA0Attempts t1 + countA0Attempts t2 := by
  simp [countA0Attempts, List.filter_append]

theorem countA0Attempts_publishA0 (r : Int) (ok : Bool) (s : MState) :
    countA0Attempts (mqttPublishA0Status r ok s).2 = 1 := by
  cases ok <;>
    simp [mqttPublishA0Status, countA0Attempts, isA0StatusPublish]

theorem countA0Attempts_publishLED (ok : Bool) (s : MState) :
    countA0Attempts (mqttPublishLEDStatus ok s).2 = 0 := by
  cases ok <;>
    simp [mqttPublishLEDStatus, countA0Attempts, isA0StatusPublish,
      ledTopic_ne_a0]

theorem check_trace_decomp (r1 r2 : Int) (a b : Bool) (s : MState) :
    (mqttCheckAndReportStatus r1 r2 a b s).2 =
      (if 100 < (r1 - s.previousA0Value).natAbs then
          mqttPublishA0Status r2 a s
        else (s, [])).2 ++
      (if (if 100 < (r1 - s.previousA0Value).natAbs then
            mqttPublishA0Status r2 a s
          else (s, [])).1.ledPin ≠
          (if 100 < (r1 - s.previousA0Value).natAbs then
            mqttPublishA0Status r2 a s
          else (s, [])).1.previousLEDValue then
          mqttPublishLEDStatus b
            (if 100 < (r1 - s.previousA0Value).natAbs then
              mqttPublishA0Status r2 a s
            else (s, [])).1
        else ((if 100 < (r1 - s.previousA0Value).natAbs then
            mqttPublishA0Status r2 a s
          else (s, [])).1, [])).2 := rfl

theorem countA0Attempts_check (r1 r2 : Int) (a b : Bool) (s : MState) :
    countA0Attempts (mqttCheckAndReportStatus r1 r2 a b s).2 =
      if 100 < (r1 - s.previousA0Value).natAbs then 1 else 0 := by
  rw [check_trace_decomp, countA0Attempts_append]
  by_cases hd : 100 < (r1 - s.previousA0Value).natAbs
  · rw [if_pos hd]
    simp only [if_pos hd, countA0Attempts_publishA0]
    by_cases hl : (mqttPublishA0Status r2 a s).1.ledPin ≠
        (mqttPublishA0Status r2 a s).1.previousLEDValue
    · rw [if_pos hl, countA0Attempts_publishLED]
    · rw [if_neg hl]; rfl
  · rw [if_neg hd]
    simp only [if_neg hd]
    by_cases hl : s.ledPin ≠ s.previousLEDValue
    · rw [if_pos hl, countA0Attempts_publishLED]; rfl
    · rw [if_neg hl]; rfl

/-- Claim C3: a failed publish (`mqttClient.publish` returning `false`)
leaves the whole state — in particular the cached `previousA0Value` and
`previousLEDValue` — unchanged, and a subsequent periodic check that reads
the same value `r` again detects the same delta and makes exactly one new
A0 publish attempt. -/
theorem C3_publish_failure_retries (r r2 : Int) (a2 b2 : Bool) (s : MState)
    (hd : 100 < (r - s.previousA0Value).natAbs) :
    (mqttPublishA0Status r false s).1 = s ∧
    (mqttPublishLEDStatus false s).1 = s ∧
    countA0Attempts
      (mqttCheckAndReportStatus r r2 a2 b2
        (mqttPublishA0Status r false s).1).2 = 1 := by
  refine ⟨rfl, rfl, ?_⟩
  have hs : (mqttPublishA0Status r false s).1 = s := rfl
  rw [hs, countA0Attempts_check, if_pos hd]

/-- Witness for C3 at reading 200 against cache 0. -/
theorem C3_witness :
    100 < ((200 : Int) - initState.previousA0Value).natAbs ∧
    ((mqttPublishA0Status 200 false initState).1 = initState ∧
      (mqttPublishLEDStatus false initState).1 = initState ∧
      countA0Attempts
        (mqttCheckAndReportStatus 200 200 false false
          (mqttPublishA0Status 200 false initState).1).2 = 1) :=
  ⟨by decide, C3_publish_failure_retries 200 200 false false initState
    (by decide)⟩

/-- Claim C5: with the LED currently off, dispatching the pair
(`<client_id>/command/LED`, "on") with a succeeding publish writes the pin
high and produces exactly the trace of one pin write followed by one
retained successful publish of "on". -/
theorem C5_led_on_command (r : Int) (s : MState) (_hoff : s.ledPin = LOW) :
    mqttCommandReceived commandLEDTopic "on" r true s =
      ({ s with ledPin := HIGH, previousLEDValue := HIGH },
        [Event.pinWrite HIGH,
          Event.publish statusLEDTopic "on" true true]) := by
  rfl

/-- Witness for C5 from the boot state. -/
theorem C5_witness :
    initState.ledPin = LOW ∧
    mqttCommandReceived commandLEDTopic "on" 0 true initState =
      ({ initState with ledPin := HIGH, previousLEDValue := HIGH },
        [Event.pinWrite HIGH,
          Event.publish statusLEDTopic "on" true true]) :=
  ⟨rfl, C5_led_on_command 0 initState rfl⟩

/-- Claim C7: the broker connect loop returns within an observed prefix of
attempt outcomes exactly when that prefix contains a success; every delay
it performs is the fixed 1000 ms (no backoff), and there is exactly one
delay per failed attempt. -/
theorem C7_broker_retry (attempts : List Bool) :
    ((connectMQTTBroker attempts).2 = true ↔ true ∈ attempts) ∧
    (∀ ms : Nat, Event.delayMs ms ∈ (connectMQTTBroker attempts).1 →
      ms = 1000) ∧
    ((connectMQTTBroker attempts).1.count (Event.delayMs 1000) =
      (connectMQTTBroker attempts).1.count (Event.connectAttempt false)) := by
  induction attempts with
  | nil =>
    refine ⟨by simp [connectMQTTBroker], ?_, rfl⟩
    intro ms hms; cases hms
  | cons ok rest ih =>
    cases ok with
    | true =>
      have hshape : (connectMQTTBroker (true :: rest)).1 =
          [Event.connectAttempt true] := rfl
      refine ⟨by simp [connectMQTTBroker], ?_, ?_⟩
      · intro ms hms
        rw [hshape, List.mem_singleton] at hms
        cases hms
      · rw [hshape]
        decide
    | false =>
      have hshape : (connectMQTTBroker (false :: rest)).1 =
          Event.connectAttempt false :: Event.delayMs 1000 ::
            (connectMQTTBroker rest).1 := rfl
      refine ⟨?_, ?_, ?_⟩
      · rw [show (connectMQTTBroker (false :: rest)).2 =
          (connectMQTTBroker rest).2 from rfl]
        rw [ih.1]
        simp
      · intro ms hms
        rw [hshape] at hms
        simp only [List.mem_cons] at hms
        rcases hms with hms | hms | hms
        · cases hms
        · injection hms
        · exact ih.2.1 ms hms
      · rw [hshape]
        simp [List.count_cons, ih.2.2]

/-- Witness for C7: one failure then success. -/
theorem C7_witness :
    (connectMQTTBroker [false, true]).2 = true ∧ (1000 : Nat) = 1000 :=
  ⟨(C7_broker_retry [false, true]).1.mpr (by decide),
    (C7_broker_retry [false, true]).2.1 1000 (by decide)⟩


/-- Claim C8: if the WiFi hardware reports absent at the start of
`connectWiFiNetwork`, the routine loops forever: for every finite
observation it has not returned and has produced no events — in particular
no `WiFi.begin` association attempt — and `setup` consequently performs no
publish, no subscription and no MQTT activity at all. -/
theorem C8_wifi_module_absent (status0 : WiFiStatus)
    (polls : List WiFiStatus) (attempts : List Bool) (reading : Int)
    (a b c : Bool) (h : status0 = WiFiStatus.noModule) :
    connectWiFiNetwork status0 polls = ([], false) ∧
    setup status0 polls attempts reading a b c = (initState, [], false) := by
  subst h
  exact ⟨rfl, rfl⟩

/-- Witness for C8. -/
theorem C8_witness :
    connectWiFiNetwork WiFiStatus.noModule [] = ([], false) ∧
    setup WiFiStatus.noModule [] [] 0 true true true =
      (initState, [], false) :=
  C8_wifi_module_absent WiFiStatus.noModule [] [] 0 true true true rfl

/-- Claim C6: when `loop` sees the client disconnected and the reconnect
returns within the observed attempts, the iteration trace is the
broker-connect events, then the single wildcard re-subscription with QoS 1,
then the inbound pump, then the periodic check; the connect events are only
connect attempts and delays, so no inbound message is processed between
reconnect and re-subscribe. -/
theorem C6_resubscribe_before_pump (attempts : List Bool) (subOk : Bool)
    (inbound : List InboundMsg) (r1 r2 : Int) (a b : Bool) (s : MState)
    (hconn : (connectMQTTBroker attempts).2 = true) :
    (loop false attempts subOk inbound r1 r2 a b s).2.1 =
      (connectMQTTBroker attempts).1 ++
        [Event.subscribe commandWildcardTopic 1 subOk] ++
        (mqttClientLoop inbound s).2 ++
        (mqttCheckAndReportStatus r1 r2 a b (mqttClientLoop inbound s).1).2 ∧
    (∀ e ∈ (connectMQTTBroker attempts).1,
      e = Event.connectAttempt true ∨ e = Event.connectAttempt false ∨
        e = Event.delayMs 1000) := by
  refine ⟨?_, connectMQTTBroker_events attempts⟩
  simp [loop, hconn, mqttSubscribeToCommands, List.append_assoc]

/-- Witness for C6: one successful connect attempt, empty pump. -/
theorem C6_witness :
    (loop false [true] true [] 0 0 true true initState).2.1 =
      (connectMQTTBroker [true]).1 ++
        [Event.subscribe commandWildcardTopic 1 true] ++
        (mqttClientLoop [] initState).2 ++
        (mqttCheckAndReportStatus 0 0 true true
          (mqttClientLoop [] initState).1).2 :=
  (C6_resubscribe_before_pump [true] true [] 0 0 true true initState
    (by decide)).1

/-- Claim C1 (amended): the dispatcher is a no-op — no state change, no pin
write, no publish — for every (topic, message) pair that does not match one
of the four recognised commands under C-string comparison, i.e. comparison
of the buffers truncated at their first nul byte. -/
theorem C1_unknown_command_no_effect (topic payload : String) (r : Int)
    (ok : Bool) (s : MState)
    (h1 : ¬(strEq topic commandA0Topic = true ∧ strEq payload "get" = true))
    (h2 : ¬(strEq topic commandLEDTopic = true ∧ strEq payload "get" = true))
    (h3 : ¬(strEq topic commandLEDTopic = true ∧ strEq payload "on" = true))
    (h4 : ¬(strEq topic commandLEDTopic = true ∧
      strEq payload "off" = true)) :
    mqttCommandReceived topic payload r ok s = (s, []) := by
  have e1 : (strEq topic commandA0Topic && strEq payload "get") = false := by
    cases hx : strEq topic commandA0Topic <;>
      cases hy : strEq payload "get" <;> simp_all
  have e2 : (strEq topic commandLEDTopic && strEq payload "get") = false := by
    cases hx : strEq topic commandLEDTopic <;>
      cases hy : strEq payload "get" <;> simp_all
  have e3 : (strEq topic commandLEDTopic && strEq payload "on") = false := by
    cases hx : strEq topic commandLEDTopic <;>
      cases hy : strEq payload "on" <;> simp_all
  have e4 : (strEq topic commandLEDTopic && strEq payload "off") = false := by
    cases hx : strEq topic commandLEDTopic <;>
      cases hy : strEq payload "off" <;> simp_all
  simp [mqttCommandReceived, e1, e2, e3, e4]

/-- Witness for C1: an unrelated pair really is a no-op. -/
theorem C1_witness :
    mqttCommandReceived "foo" "bar" 7 true initState = (initState, []) :=
  C1_unknown_command_no_effect "foo" "bar" 7 true initState (by decide)
    (by decide) (by decide) (by decide)

/-- Counterexample to C1 as stated: the payload bytes "on", nul, "x" form a
pair distinct from all four recognised (topic, message) pairs, yet the
dispatcher writes the pin high and publishes, because the C-string
comparison stops at the embedded nul byte. -/
theorem C1_counterexample :
    ((commandLEDTopic, (⟨"on".data ++ nulChar :: "x".data⟩ : String)) ∉
      ([(commandA0Topic, "get"), (commandLEDTopic, "get"),
        (commandLEDTopic, "on"), (commandLEDTopic, "off")] :
        List (String × String))) ∧
    Event.pinWrite HIGH ∈
      (mqttCommandReceived commandLEDTopic
        ⟨"on".data ++ nulChar :: "x".data⟩ 0 true initState).2 ∧
    Event.publish statusLEDTopic "on" true true ∈
      (mqttCommandReceived commandLEDTopic
        ⟨"on".data ++ nulChar :: "x".data⟩ 0 true initState).2 := by
  decide

theorem publishLED_preserves_a0 (b : Bool) (s1 : MState) :
    (mqttPublishLEDStatus b s1).1.previousA0Value = s1.previousA0Value := by
  cases b <;> rfl

theorem check_state_decomp (r1 r2 : Int) (a b : Bool) (s : MState) :
    (mqttCheckAndReportStatus r1 r2 a b s).1 =
      (if (if 100 < (r1 - s.previousA0Value).natAbs then
            mqttPublishA0Status r2 a s
          else (s, [])).1.ledPin ≠
          (if 100 < (r1 - s.previousA0Value).natAbs then
            mqttPublishA0Status r2 a s
          else (s, [])).1.previousLEDValue then
          mqttPublishLEDStatus b
            (if 100 < (r1 - s.previousA0Value).natAbs then
              mqttPublishA0Status r2 a s
            else (s, [])).1
        else ((if 100 < (r1 - s.previousA0Value).natAbs then
            mqttPublishA0Status r2 a s
          else (s, [])).1, [])).1 := rfl

theorem check_state_a0 (r1 r2 : Int) (a b : Bool) (s : MState) :
    (mqttCheckAndReportStatus r1 r2 a b s).1.previousA0Value =
      (if 100 < (r1 - s.previousA0Value).natAbs then
        mqttPublishA0Status r2 a s else (s, [])).1.previousA0Value := by
  rw [check_state_decomp]
  by_cases hl : (if 100 < (r1 - s.previousA0Value).natAbs then
      mqttPublishA0Status r2 a s else (s, [])).1.ledPin ≠
      (if 100 < (r1 - s.previousA0Value).natAbs then
        mqttPublishA0Status r2 a s else (s, [])).1.previousLEDValue
  · rw [if_pos hl, publishLED_preserves_a0]
  · rw [if_neg hl]

/-- Claim C2 (amended): when two consecutive A0 readings (cached versus
fresh) differ by at most 100 the periodic check makes no A0 publish
attempt; when they differ by more than 100 it makes exactly one attempt,
and the cached `previousA0Value` becomes the reading taken inside the
publish routine when the publish succeeds, while it is left unchanged when
the publish fails. -/
theorem C2_threshold_reporting (r1 r2 : Int) (a b : Bool) (s : MState) :
    ((r1 - s.previousA0Value).natAbs ≤ 100 →
      countA0Attempts (mqttCheckAndReportStatus r1 r2 a b s).2 = 0) ∧
    (100 < (r1 - s.previousA0Value).natAbs →
      countA0Attempts (mqttCheckAndReportStatus r1 r2 a b s).2 = 1 ∧
      (a = true →
        (mqttCheckAndReportStatus r1 r2 a b s).1.previousA0Value = r2) ∧
      (a = false →
        (mqttCheckAndReportStatus r1 r2 a b s).1.previousA0Value =
          s.previousA0Value)) := by
  constructor
  · intro hle
    rw [countA0Attempts_check, if_neg (by omega)]
  · intro hd
    refine ⟨by rw [countA0Attempts_check, if_pos hd], ?_, ?_⟩
    · intro ha; subst ha
      rw [check_state_a0, if_pos hd]
      rfl
    · intro ha; subst ha
      rw [check_state_a0, if_pos hd]
      rfl

/-- Witness for C2: below the threshold nothing is attempted; above it one
attempt is made and a successful publish caches the publish-time reading. -/
theorem C2_witness :
    countA0Attempts (mqttCheckAndReportStatus 50 50 true true initState).2
      = 0 ∧
    countA0Attempts (mqttCheckAndReportStatus 200 300 true true initState).2
      = 1 ∧
    (mqttCheckAndReportStatus 200 300 true true
      initState).1.previousA0Value = 300 :=
  ⟨(C2_threshold_reporting 50 50 true true initState).1 (by decide),
    ((C2_threshold_reporting 200 300 true true initState).2 (by decide)).1,
    ((C2_threshold_reporting 200 300 true true initState).2
      (by decide)).2.1 rfl⟩

/-- Counterexample to C2 as stated: reading 200 against cached 0 differs by
more than 100 and triggers exactly one publish attempt, but the attempt
fails and the cached value does not update to the new reading. -/
theorem C2_counterexample :
    100 < ((200 : Int) - initState.previousA0Value).natAbs ∧
    countA0Attempts
      (mqttCheckAndReportStatus 200 200 false false initState).2 = 1 ∧
    (mqttCheckAndReportStatus 200 200 false false
      initState).1.previousA0Value ≠ 200 := by
  decide


/-- Claim C9: the publish routines read the hardware at publish time: the
A0 payload published and (on success) cached is the reading `r2` taken
inside `mqttPublishA0Status`, for every trigger; the LED payload is the pin
state read inside `mqttPublishLEDStatus`; and there are triggers where `r2`
differs from the triggering reading `r1` and lies within the change
threshold of the old cached value, yet is still published and cached. -/
theorem C9_fresh_read_at_publish (r1 r2 : Int) (ok led2 : Bool)
    (s : MState) :
    (mqttPublishA0Status r2 ok s).2 =
      [Event.publish statusA0Topic (itoa10 r2) true ok] ∧
    (ok = true → (mqttPublishA0Status r2 ok s).1.previousA0Value = r2) ∧
    (mqttPublishLEDStatus ok s).2 =
      [Event.publish statusLEDTopic (ledStatusString s.ledPin) true ok] ∧
    (100 < (r1 - s.previousA0Value).natAbs →
      Event.publish statusA0Topic (itoa10 r2) true true ∈
        (mqttCheckAndReportStatus r1 r2 true led2 s).2 ∧
      (mqttCheckAndReportStatus r1 r2 true led2 s).1.previousA0Value = r2) ∧
    (∃ s0 : MState, ∃ q1 q2 : Int,
      100 < (q1 - s0.previousA0Value).natAbs ∧ q2 ≠ q1 ∧
      (q2 - s0.previousA0Value).natAbs ≤ 100 ∧
      (mqttCheckAndReportStatus q1 q2 true led2 s0).1.previousA0Value =
        q2) := by
  refine ⟨?_, ?_, ?_, ?_, ?_⟩
  · cases ok <;> rfl
  · intro ha; subst ha; rfl
  · cases ok <;> rfl
  · intro hd
    constructor
    · rw [check_trace_decomp, if_pos hd]
      have : Event.publish statusA0Topic (itoa10 r2) true true ∈
          (mqttPublishA0Status r2 true s).2 := by
        rw [show (mqttPublishA0Status r2 true s).2 =
          [Event.publish statusA0Topic (itoa10 r2) true true] from rfl]
        exact List.mem_singleton.mpr rfl
      exact List.mem_append.mpr (Or.inl this)
    · rw [check_state_a0, if_pos hd]
      rfl
  · refine ⟨initState, 200, 50, by decide, by decide, by decide, ?_⟩
    cases led2 <;> decide

/-- Witness for C9 at trigger reading 200 and publish-time reading 50. -/
theorem C9_witness :
    (mqttPublishA0Status 50 true initState).1.previousA0Value = 50 ∧
    (mqttCheckAndReportStatus 200 50 true false
      initState).1.previousA0Value = 50 :=
  ⟨(C9_fresh_read_at_publish 200 50 true false initState).2.1 rfl,
    ((C9_fresh_read_at_publish 200 50 true false initState).2.2.2.1
      (by decide)).2⟩

theorem natDigitsAux_length_le (fuel : Nat) :
    ∀ k n : Nat, n < 10 ^ (k + 1) → n < fuel →
      (natDigitsAux fuel n).length ≤ k + 1 := by
  induction fuel with
  | zero => intro k n _ h; omega
  | succ fuel ih =>
    intro k n hk hf
    by_cases h10 : n < 10
    · simp [natDigitsAux, h10]
    · rw [show natDigitsAux (fuel + 1) n =
        natDigitsAux fuel (n / 10) ++ [digitChar (n % 10)] from by
          simp [natDigitsAux, h10]]
      rw [List.length_append]
      have hk1 : 1 ≤ k := by
        by_contra hc
        have hk0 : k = 0 := by omega
        subst hk0
        simp at hk
        omega
      have hdiv : n / 10 < 10 ^ k := by
        rw [Nat.div_lt_iff_lt_mul (by omega : 0 < 10)]
        calc n < 10 ^ (k + 1) := hk
        _ = 10 ^ k * 10 := by rw [pow_succ]
      have hfd : n / 10 < fuel := by
        have : n / 10 < n := Nat.div_lt_self (by omega) (by omega)
        omega
      have hlen := ih (k - 1) (n / 10)
        (by rw [Nat.sub_add_cancel hk1]; exact hdiv) hfd
      simp only [List.length_singleton]
      omega

theorem natDigitsAux_length_ge (fuel : Nat) :
    ∀ k n : Nat, 10 ^ k ≤ n → n < fuel →
      k + 1 ≤ (natDigitsAux fuel n).length := by
  induction fuel with
  | zero => intro k n _ h; omega
  | succ fuel ih =>
    intro k n hk hf
    by_cases h10 : n < 10
    · have hk0 : k = 0 := by
        by_contra hc
        have h1 : 1 ≤ k := by omega
        have := Nat.pow_le_pow_right (by omega : 1 ≤ 10) h1
        simp at this
        omega
      subst hk0
      simp [natDigitsAux, h10]
    · rw [show natDigitsAux (fuel + 1) n =
        natDigitsAux fuel (n / 10) ++ [digitChar (n % 10)] from by
          simp [natDigitsAux, h10]]
      rw [List.length_append]
      by_cases hk0 : k = 0
      · subst hk0
        simp only [List.length_singleton]
        omega
      · have hk1 : 1 ≤ k := by omega
        have hdiv : 10 ^ (k - 1) ≤ n / 10 := by
          rw [Nat.le_div_iff_mul_le (by omega : 0 < 10)]
          calc 10 ^ (k - 1) * 10 = 10 ^ (k - 1 + 1) := by rw [pow_succ]
          _ = 10 ^ k := by rw [Nat.sub_add_cancel hk1]
          _ ≤ n := hk
        have hfd : n / 10 < fuel := by
          have : n / 10 < n := Nat.div_lt_self (by omega) (by omega)
          omega
        have hlen := ih (k - 1) (n / 10) hdiv hfd
        simp only [List.length_singleton]
        omega

theorem natDigits_length_le (k n : Nat) (h : n < 10 ^ (k + 1)) :
    (natDigits n).length ≤ k + 1 :=
  natDigitsAux_length_le (n + 1) k n h (by omega)

theorem natDigits_length_ge (k n : Nat) (h : 10 ^ k ≤ n) :
    k + 1 ≤ (natDigits n).length :=
  natDigitsAux_length_ge (n + 1) k n h (by omega)

theorem itoa10_length_nonneg (v : Int) (h : 0 ≤ v) :
    (itoa10 v).length = (natDigits v.natAbs).length := by
  rw [itoa10, if_neg (by omega)]
  rfl

theorem itoa10_length_neg (v : Int) (h : v < 0) :
    (itoa10 v).length = (natDigits v.natAbs).length + 1 := by
  rw [itoa10, if_pos h]
  show (Char.ofNat 45 :: natDigits v.natAbs).length = _
  rw [List.length_cons]

/-- Claim C10 (amended): `itoa`'s rendering of reading `v` plus its nul
terminator fits the 5-byte `status` buffer of `mqttPublishA0Status` exactly
when `-999 ≤ v ≤ 9999` — so every reading `0 ≤ v ≤ 9999` fits and the
published payload is the exact decimal rendering of `v`, while readings at
least 10000 or at most -1000 would exceed the buffer. -/
theorem C10_buffer_bound (v : Int) (ok : Bool) (s : MState) :
    ((itoa10 v).length + 1 ≤ 5 ↔ (-999 ≤ v ∧ v ≤ 9999)) ∧
    (mqttPublishA0Status v ok s).2 =
      [Event.publish statusA0Topic (itoa10 v) true ok] := by
  have p2 : (10 : Nat) ^ 2 = 100 := by norm_num
  have p3 : (10 : Nat) ^ 3 = 1000 := by norm_num
  have p4 : (10 : Nat) ^ 4 = 10000 := by norm_num
  constructor
  · constructor
    · intro hf
      constructor
      · by_contra hc
        push_neg at hc
        have hv : v < 0 := by omega
        have hna : 1000 ≤ v.natAbs := by omega
        have hge := natDigits_length_ge 3 v.natAbs (by omega)
        rw [itoa10_length_neg v hv] at hf
        omega
      · by_contra hc
        push_neg at hc
        have hv : (0 : Int) ≤ v := by omega
        have hna : 10000 ≤ v.natAbs := by omega
        have hge := natDigits_length_ge 4 v.natAbs (by omega)
        rw [itoa10_length_nonneg v hv] at hf
        omega
    · rintro ⟨hlo, hhi⟩
      by_cases hv : v < 0
      · have hna : v.natAbs < 1000 := by omega
        have hle := natDigits_length_le 2 v.natAbs (by omega)
        rw [itoa10_length_neg v hv]
        omega
      · have hna : v.natAbs < 10000 := by omega
        have hle := natDigits_length_le 3 v.natAbs (by omega)
        rw [itoa10_length_nonneg v (by omega)]
        omega
  · cases ok <;> rfl

/-- Witness for C10 at the in-range reading 512 and the boundary 9999. -/
theorem C10_witness :
    ((itoa10 512).length + 1 ≤ 5 ↔ ((-999 : Int) ≤ 512 ∧ (512 : Int) ≤ 9999)) ∧
    (mqttPublishA0Status 512 true initState).2 =
      [Event.publish statusA0Topic (itoa10 512) true true] :=
  C10_buffer_bound 512 true initState

/-- Counterexample to C10 as stated: the negative reading -1 renders as two
characters, which with the nul terminator fits the 5-byte buffer, so not
every reading outside 0..9999 exceeds the buffer. -/
theorem C10_counterexample :
    ((-1 : Int) < 0) ∧ (itoa10 (-1)).length + 1 ≤ 5 := by
  decide


end MQTTClient
